import Mathlib

/-!
# Verification of the mev-blocks query/reconciliation engine

Shallow embedding of `server/main.js` (and the identical reconciliation code in
`server/premerge.js`) of the flashbots/mev-blocks repository, together with
proofs settling the frozen claims about the blocks/transactions listing
endpoints: parameter validation, the per-channel aggregation queries, the
block-number union/sort/truncate step, and the megabundle attribution merge.

Modelling conventions:
* SQL result rows are modelled as Lean structures (`Tx`, `Block`); the two
  aggregation queries are modelled as filter/sort/limit over a list of
  per-block aggregate rows, which is how the `GROUP BY block_number` queries
  behave observationally.
* JavaScript `undefined` is modelled with `Option`; JavaScript property access
  that would throw a `TypeError` is modelled in the `...Checked` variants with
  `Except`.
* lodash `_.uniq` keeps the first occurrence of each value; lodash
  `_.takeRight n` keeps the last `n` entries; both are embedded directly.
* The lodash chain `.sort()` calls JavaScript `Array.prototype.sort` with no
  comparator, which orders elements by comparing their decimal string
  renderings.  We model this with the key `jsKey n` (the most-significant-first
  decimal digit list of `n`) compared lexicographically; on decimal renderings
  of natural numbers this coincides exactly with the JavaScript string
  comparison.  Since after `uniq` all elements are distinct (and `jsKey` is
  injective), the sorted permutation is unique, so modelling the sort with
  insertion sort is faithful to any correct comparison sort.
-/

namespace MevBlocks

/-! ## The JavaScript default-sort key -/

/-- Little-endian decimal digits of `n`, with explicit fuel so the recursion is
structural (the fuel is always instantiated with `n` itself, which bounds the
number of divisions by 10). `digitsRevGo n 0 = []`. -/
def digitsRevGo : Nat → Nat → List Nat
  | 0, _ => []
  | _ + 1, 0 => []
  | fuel + 1, n + 1 => ((n + 1) % 10) :: digitsRevGo fuel ((n + 1) / 10)

/-- The key by which JavaScript's default `Array.prototype.sort` compares the
number `n`: its decimal digits, most significant first.  Lexicographic
comparison of these keys agrees with JavaScript's comparison of the decimal
strings `String(n)` (digit characters are ordered like digit values, and no
key has leading zeros; `jsKey 0 = []` compares below every other key, just as
the string `"0"` compares below every other rendered natural). -/
def jsKey (n : Nat) : List Nat :=
  (digitsRevGo n n).reverse

/-- Evaluation of a little-endian digit list back to a number; used to show
`jsKey` is injective. -/
def unDigits : List Nat → Nat
  | [] => 0
  | d :: ds => d + 10 * unDigits ds

theorem unDigits_digitsRevGo : ∀ (fuel n : Nat), n ≤ fuel →
    unDigits (digitsRevGo fuel n) = n := by
  intro fuel
  induction fuel with
  | zero =>
    intro n hn
    interval_cases n
    rfl
  | succ fuel ih =>
    intro n hn
    match n with
    | 0 => rfl
    | m + 1 =>
      have hdiv : (m + 1) / 10 ≤ fuel := by
        have : (m + 1) / 10 < m + 1 := Nat.div_lt_self (Nat.succ_pos m) (by omega)
        omega
      simp only [digitsRevGo, unDigits, ih _ hdiv]
      omega

theorem jsKey_injective : Function.Injective jsKey := by
  intro a b h
  have h' : digitsRevGo a a = digitsRevGo b b := by
    have := congrArg List.reverse h
    simpa [jsKey] using this
  have ha := unDigits_digitsRevGo a a le_rfl
  have hb := unDigits_digitsRevGo b b le_rfl
  rw [← ha, ← hb, h']

/-- The strict order in which JavaScript's default sort places natural
numbers: lexicographic comparison of decimal renderings. -/
def jsLt (a b : Nat) : Prop :=
  jsKey a < jsKey b

/-- The corresponding non-strict comparator (used as the sorting relation). -/
def jsLe (a b : Nat) : Prop :=
  jsKey a ≤ jsKey b

instance : DecidableRel jsLt := fun a b =>
  inferInstanceAs (Decidable (jsKey a < jsKey b))

instance : DecidableRel jsLe := fun a b =>
  inferInstanceAs (Decidable (jsKey a ≤ jsKey b))

instance : IsTotal Nat jsLe :=
  ⟨fun a b => le_total (jsKey a) (jsKey b)⟩

instance : IsTrans Nat jsLe :=
  ⟨fun _ _ _ h1 h2 => le_trans h1 h2⟩

theorem jsLt_of_jsLe_of_ne {a b : Nat} (h : jsLe a b) (hne : a ≠ b) : jsLt a b :=
  lt_of_le_of_ne h (fun hk => hne (jsKey_injective hk))

theorem jsLt_asymm {a b : Nat} (h1 : jsLt a b) (h2 : jsLe b a) : False :=
  absurd h2 (not_le_of_lt h1)

/-! ## lodash primitives -/

/-- `_.uniq`, with an accumulator of already-seen values so the recursion is
structural: keeps the first occurrence of each value, in order. -/
def uniqAux : List Nat → List Nat → List Nat
  | [], _ => []
  | a :: l, seen => if a ∈ seen then uniqAux l seen else a :: uniqAux l (a :: seen)

/-- lodash `_.uniq`: first occurrences, input order preserved. -/
def uniqJS (l : List Nat) : List Nat :=
  uniqAux l []

theorem mem_uniqAux {x : Nat} : ∀ {l seen : List Nat},
    x ∈ uniqAux l seen ↔ x ∈ l ∧ x ∉ seen := by
  intro l
  induction l with
  | nil => simp [uniqAux]
  | cons a l ih =>
    intro seen
    by_cases ha : a ∈ seen
    · simp only [uniqAux, if_pos ha, ih, List.mem_cons]
      constructor
      · rintro ⟨hx, hs⟩
        exact ⟨Or.inr hx, hs⟩
      · rintro ⟨hx | hx, hs⟩
        · exact absurd (hx ▸ ha) hs
        · exact ⟨hx, hs⟩
    · simp only [uniqAux, if_neg ha, List.mem_cons, ih]
      by_cases hxa : x = a
      · subst hxa; tauto
      · tauto

theorem mem_uniqJS {x : Nat} {l : List Nat} : x ∈ uniqJS l ↔ x ∈ l := by
  simp [uniqJS, mem_uniqAux]

theorem nodup_uniqAux : ∀ (l seen : List Nat), (uniqAux l seen).Nodup := by
  intro l
  induction l with
  | nil => intro seen; simp [uniqAux]
  | cons a l ih =>
    intro seen
    by_cases ha : a ∈ seen
    · simpa [uniqAux, if_pos ha] using ih seen
    · simp only [uniqAux, if_neg ha]
      refine List.nodup_cons.mpr ⟨?_, ih (a :: seen)⟩
      intro hmem
      exact (mem_uniqAux.mp hmem).2 (List.mem_cons_self a seen)

theorem nodup_uniqJS (l : List Nat) : (uniqJS l).Nodup :=
  nodup_uniqAux l []

/-- lodash `_.takeRight n l`: the last `n` elements of `l` (all of `l` when it
is shorter), order preserved. -/
def takeRight (n : Nat) (l : List α) : List α :=
  l.drop (l.length - n)

theorem takeRight_sublist (n : Nat) (l : List α) : (takeRight n l).Sublist l :=
  List.drop_sublist _ l

theorem takeRight_subset (n : Nat) (l : List α) : takeRight n l ⊆ l :=
  (takeRight_sublist n l).subset

theorem length_takeRight (n : Nat) (l : List α) :
    (takeRight n l).length = min n l.length := by
  simp [takeRight]
  omega

/-! ## Data model

SQL aggregate rows, as produced by the two aggregation queries in
`/v1/blocks` (main.js lines 316–399).  Scalar aggregate columns that the
reconciliation logic never inspects (`miner_reward`, `coinbase_transfers`,
`gas_used`, `gas_price`, `witnessed_at`) are collapsed into one opaque
`payload` field; the fields the control flow reads (`block_number`,
`transactions`, per-transaction `transaction_hash`) are kept as in the
source, together with `miner` and the per-transaction `eoa_address` used by
the `miner`/`from` filters.  `is_megabundle` is absent on rows coming from
SQL (modelled as `false`) and is set by the merge. -/

/-- One transaction inside a block's aggregated `transactions` array. -/
structure Tx where
  transaction_hash : String
  block_number : Nat
  eoa_address : String
  is_megabundle : Bool
deriving DecidableEq, Repr

/-- One per-block aggregate row (`GROUP BY block_number`). -/
structure Block where
  block_number : Nat
  miner : String
  payload : String
  transactions : List Tx
deriving DecidableEq, Repr

/-- main.js lines 36–40 (identical in premerge.js lines 5–9):
`isMegabundleBlock(mergedBlock, megabundleBlock)`. -/
def isMegabundleBlock (mergedBlock megabundleBlock : Option Block) : Bool :=
  match mergedBlock with
  | none => true
  | some merged =>
    match megabundleBlock with
    | none => false
    | some megabundle => megabundle.transactions.length > merged.transactions.length

/-- The spread `{ ...tx, is_megabundle: true }` (main.js lines 161–164). -/
def tagTx (tx : Tx) : Tx :=
  { tx with is_megabundle := true }

/-- One step of the positional attribution walk (main.js lines 173–183): the
body of the `_.map(baseBlock.transactions, (transaction, i) => ...)` callback.
`megaTx`/`mergedTx` are `megaBundleTransactions[i]`/`mergedTransactions[i]`.
The condition
`(megaTx === undefined && mergedTx !== undefined) || megaTx.transaction_hash !== mergedTx.transaction_hash`
leaves the transaction untagged when true and tags it otherwise.  The two
cases in which JavaScript would throw a `TypeError` while evaluating the
condition (`megaTx` and `mergedTx` both `undefined`, so the second disjunct
reads `megaTx.transaction_hash`; or `mergedTx` `undefined` with `megaTx`
present, so it reads `mergedTx.transaction_hash`) are modelled exactly in
`txAttribChecked`; this total variant returns the transaction unchanged
there (those cases are unreachable from the merge, see the claim-C10
theorem). -/
def txAttrib (megaTx mergedTx : Option Tx) (transaction : Tx) : Tx :=
  match megaTx, mergedTx with
  | none, _ => transaction
  | some _, none => transaction
  | some mt, some dt =>
    if mt.transaction_hash ≠ dt.transaction_hash then transaction
    else { transaction with is_megabundle := true }

/-- The same step with JavaScript `TypeError`s made explicit. -/
def txAttribChecked (megaTx mergedTx : Option Tx) (transaction : Tx) :
    Except String Tx :=
  match megaTx, mergedTx with
  | none, some _ => .ok transaction
  | none, none => .error "TypeError: reading transaction_hash of undefined"
  | some _, none => .error "TypeError: reading transaction_hash of undefined"
  | some mt, some dt =>
    .ok (if mt.transaction_hash ≠ dt.transaction_hash then transaction
         else { transaction with is_megabundle := true })

/-- The indexed map `_.map(baseBlock.transactions, (transaction, i) => ...)`
(main.js lines 173–183), walking `base` with running index `i` and looking up
position `i` in both channels' transaction lists. -/
def attribWalk (megaTxs mergedTxs : List Tx) : Nat → List Tx → List Tx
  | _, [] => []
  | i, t :: ts =>
    txAttrib megaTxs[i]? mergedTxs[i]? t :: attribWalk megaTxs mergedTxs (i + 1) ts

/-- `attribWalk` with `TypeError`s made explicit. -/
def attribWalkChecked (megaTxs mergedTxs : List Tx) :
    Nat → List Tx → Except String (List Tx)
  | _, [] => .ok []
  | i, t :: ts => do
    let t' ← txAttribChecked megaTxs[i]? mergedTxs[i]? t
    let ts' ← attribWalkChecked megaTxs mergedTxs (i + 1) ts
    pure (t' :: ts')

/-- main.js lines 155–188 (identical in premerge.js lines 72–105):
`inferMegabundleTransactionsByBlock(megaBundleBlock, mergedBlock)`.

The source's early returns are rendered as nested matches: `megaBundleBlock
=== undefined` returns `mergedBlock`; then `mergedBlock === undefined ||
megaBundleBlock.transactions.length > mergedBlock.transactions.length`
returns the megabundle block with every transaction tagged; otherwise the
base block is selected via `isMegabundleBlock` and the positional
attribution walk runs over its transactions. -/
def inferMegabundleTransactionsByBlock (megaBundleBlock mergedBlock : Option Block) :
    Option Block :=
  match megaBundleBlock with
  | none => mergedBlock
  | some megaBundle =>
    match mergedBlock with
    | none => some { megaBundle with transactions := megaBundle.transactions.map tagTx }
    | some merged =>
      if megaBundle.transactions.length > merged.transactions.length then
        some { megaBundle with transactions := megaBundle.transactions.map tagTx }
      else
        let baseBlock :=
          if isMegabundleBlock (some merged) (some megaBundle) then megaBundle else merged
        some { baseBlock with
               transactions :=
                 attribWalk megaBundle.transactions merged.transactions 0
                   baseBlock.transactions }

/-- `inferMegabundleTransactionsByBlock` with JavaScript `TypeError`s made
explicit (only the attribution walk can throw). -/
def inferMegabundleTransactionsByBlockChecked
    (megaBundleBlock mergedBlock : Option Block) : Except String (Option Block) :=
  match megaBundleBlock with
  | none => .ok mergedBlock
  | some megaBundle =>
    match mergedBlock with
    | none =>
      .ok (some { megaBundle with transactions := megaBundle.transactions.map tagTx })
    | some merged =>
      if megaBundle.transactions.length > merged.transactions.length then
        .ok (some { megaBundle with transactions := megaBundle.transactions.map tagTx })
      else
        let baseBlock :=
          if isMegabundleBlock (some merged) (some megaBundle) then megaBundle else merged
        (attribWalkChecked megaBundle.transactions merged.transactions 0
            baseBlock.transactions).map
          (fun ts => some { baseBlock with transactions := ts })

/-! ## The `/v1/blocks` reconciliation pipeline (main.js lines 401–415) -/

/-- main.js lines 402–407: the lodash chain
`_.chain([...mergedBundles, ...megabundles]).map('block_number').uniq().sort().takeRight(limit).value()`.
The comparator-less `.sort()` is the JavaScript default sort, i.e. ascending
in `jsLe` (decimal-string comparison). -/
def blockNumbersOf (mergedBundles megabundles : List Block) (limit : Nat) : List Nat :=
  takeRight limit
    (List.insertionSort jsLe (uniqJS ((mergedBundles ++ megabundles).map Block.block_number)))

/-- main.js lines 409–410 plus the indexing on lines 412–413:
`_.keyBy(bundleList, 'block_number')[blockNumber]`.  `_.keyBy` builds an
object in which a later row with the same key overwrites an earlier one, so
the lookup returns the last matching row (and `undefined`, i.e. `none`, when
no row matches). -/
def keyByLookup (rows : List Block) (blockNumber : Nat) : Option Block :=
  rows.reverse.find? (fun b => b.block_number == blockNumber)

/-- main.js lines 411–415: rebuild the output array over the selected block
numbers.  An entry is `none` exactly when the block number is in neither
channel (in JavaScript the array would then hold `undefined`); the theorems
show this does not occur for numbers drawn from the union. -/
def inferredBundleBlocksOf (mergedBundles megabundles : List Block) (limit : Nat) :
    List (Option Block) :=
  (blockNumbersOf mergedBundles megabundles limit).map fun blockNumber =>
    inferMegabundleTransactionsByBlock
      (keyByLookup megabundles blockNumber)
      (keyByLookup mergedBundles blockNumber)

/-! ## The aggregation queries

The two SQL aggregations (main.js lines 316–355 and 357–399) are modelled
observationally over a list of per-block aggregate rows: the `WHERE` clause
becomes a filter, `ORDER BY block_number desc` a sort, `LIMIT` a take.  Each
`${param || null}::int is null or ...` clause disables its filter when the
bound parameter is JavaScript-falsy — in particular when the parsed integer
is `0`. -/

/-- `(${beforeInt || null}::int is null or block_number < ${beforeInt}::int)`:
the filter is disabled when `beforeInt` is absent or `0` (falsy). -/
def beforeCond (beforeInt : Option Int) (blockNumber : Nat) : Bool :=
  match beforeInt with
  | none => true
  | some v => if v = 0 then true else decide ((blockNumber : Int) < v)

/-- `(${blockNumInt || null}::int is null or block_number = ${blockNumInt}::int)`:
disabled when `blockNumInt` is absent or `0` (falsy). -/
def blockNumCond (blockNumInt : Option Int) (blockNumber : Nat) : Bool :=
  match blockNumInt with
  | none => true
  | some v => if v = 0 then true else decide ((blockNumber : Int) = v)

/-- `(${miner || null}::text is null or mb.miner = ${miner})`; the
checksummed address is always a non-empty string, hence truthy. -/
def minerCond (miner : Option String) (b : Block) : Bool :=
  match miner with
  | none => true
  | some m => b.miner == m

/-- `(${from || null}::text is null or mb.block_number IN (SELECT block_number
FROM mined_bundle_txs WHERE from_address = ${from}))`.  Since the aggregate
row for a block collects exactly the transaction rows with that block number,
the existential subquery holds iff some transaction of the row has the given
sender. -/
def fromCond (fromAddress : Option String) (b : Block) : Bool :=
  match fromAddress with
  | none => true
  | some f => b.transactions.any (fun t => t.eoa_address == f)

/-- `ORDER BY block_number desc` (a genuine numeric sort in SQL). -/
def sortByBlockNumberDesc (rows : List Block) : List Block :=
  List.insertionSort (fun a b : Block => b.block_number ≤ a.block_number) rows

/-- One channel's aggregation query: `WHERE` filters, `ORDER BY block_number
desc`, `LIMIT limit`.  Instantiated with the regular-bundle rows for the
`mergedBundles` query and with the megabundle rows for the `megabundles`
query (whose filter/order/limit shape is identical). -/
def channelQuery (db : List Block) (beforeInt blockNumInt : Option Int)
    (miner fromAddress : Option String) (limit : Nat) : List Block :=
  (sortByBlockNumberDesc (db.filter fun b =>
      beforeCond beforeInt b.block_number && blockNumCond blockNumInt b.block_number &&
        minerCond miner b && fromCond fromAddress b)).take limit

/-- The `/v1/transactions` query (main.js lines 120–142): filter by `before`,
`ORDER BY block_number desc`, `LIMIT limit`. -/
def transactionsQuery (db : List Tx) (beforeInt : Option Int) (limit : Nat) : List Tx :=
  (List.insertionSort (fun a b : Tx => b.block_number ≤ a.block_number)
      (db.filter fun t => beforeCond beforeInt t.block_number)).take limit

/-! ## The HTTP handlers

Query parameters are modelled after `parseInt` has been applied to the raw
strings, since every claim is phrased in terms of the parsed values:

* `before`/`block_number`: `none` when the raw parameter is absent, the empty
  string, or (for `before`) the literal `"latest"` — all of which make the
  guarding `if (param)` falsy so the parameter is ignored; `some none` when a
  non-empty raw string fails `parseInt` (`NaN`); `some (some v)` when it
  parses to `v`.
* `limit`: directly the `parseInt` result (`none` = `NaN`, which includes the
  absent parameter).
* `miner`/`from`: `none` when absent or empty (falsy), otherwise the raw
  string.

The `latest_block_number` response annotation comes from an independent
`select max(block_number) from blocks` and plays no part in any claim; it is
omitted from the modelled response payload. -/

/-- A handler response: an express `res.status(400).json({error})`, the
`catch`-block `res.status(500)` (an uncaught exception, e.g. a
`toChecksumAddress` throw or a query failure), or the JSON success payload. -/
inductive Resp (α : Type) where
  | badRequest (error : String)
  | serverError
  | ok (data : α)
deriving DecidableEq, Repr

/-- Is the response the client-error (HTTP 400) validation shape? -/
def Resp.isClientError : Resp α → Bool
  | .badRequest _ => true
  | _ => false

/-- The parsed integer actually used downstream of validation: the source
keeps `beforeInt`/`blockNumInt` `undefined` unless the raw parameter was
truthy and parsed. -/
def parsedParam : Option (Option Int) → Option Int
  | some (some v) => some v
  | _ => none

/-- `let miner = req.query.miner; if (miner) miner = utils.toChecksumAddress(miner)`:
the canonicalizer is an external collaborator modelled as a partial function;
a malformed address makes it throw (`none`), which the handler's `try/catch`
turns into a 500. -/
def checksumOpt (checksum : String → Option String) :
    Option String → Except Unit (Option String)
  | none => .ok none
  | some a =>
    match checksum a with
    | none => .error ()
    | some c => .ok (some c)

/-- Query parameters of `GET /v1/blocks`, post-`parseInt` (see above). -/
structure BlocksReq where
  before : Option (Option Int)
  block_number : Option (Option Int)
  miner : Option String
  fromParam : Option String
  limit : Option Int
deriving DecidableEq, Repr

/-- Query parameters of `GET /v1/transactions`, post-`parseInt`. -/
structure TransactionsReq where
  before : Option (Option Int)
  limit : Option Int
deriving DecidableEq, Repr

/-- The `GET /v1/blocks` handler (main.js lines 269–426): `limit` defaulting
and validation (`limit < 0 || limit > 10000`), `before`/`block_number` parse
validation, address canonicalization (throwing into the catch block),
the two channel aggregations, and the reconciliation merge. -/
def blocksHandler (mergedDb megaDb : List Block) (checksum : String → Option String)
    (req : BlocksReq) : Resp (List (Option Block)) :=
  let limit : Int := req.limit.getD 100
  if limit < 0 || limit > 10000 then
    .badRequest "invalid limit param provided, must be less than 10000 and more than 0 but got"
  else if req.before = some none then
    .badRequest "invalid before param provided, expected a number but got"
  else if req.block_number = some none then
    .badRequest "invalid block_number param provided, expected a number but got"
  else
    let beforeInt := parsedParam req.before
    let blockNumInt := parsedParam req.block_number
    match checksumOpt checksum req.miner with
    | .error _ => .serverError
    | .ok minerC =>
      match checksumOpt checksum req.fromParam with
      | .error _ => .serverError
      | .ok fromC =>
        let mergedBundles := channelQuery mergedDb beforeInt blockNumInt minerC fromC limit.toNat
        let megabundles := channelQuery megaDb beforeInt blockNumInt minerC fromC limit.toNat
        .ok (inferredBundleBlocksOf mergedBundles megabundles limit.toNat)

/-- The `GET /v1/transactions` handler (main.js lines 95–153): `limit`
defaulting and validation, `before` parse validation, one query. -/
def transactionsHandler (txDb : List Tx) (req : TransactionsReq) : Resp (List Tx) :=
  let limit : Int := req.limit.getD 100
  if limit < 0 || limit > 10000 then
    .badRequest "invalid limit param provided, must be less than 10000 and more than 0"
  else if req.before = some none then
    .badRequest "invalid before param provided, expected a number but got"
  else
    .ok (transactionsQuery txDb (parsedParam req.before) limit.toNat)

/-! ## Basic lemmas about the attribution walk and the merge -/

theorem length_attribWalk (megaTxs mergedTxs : List Tx) :
    ∀ (base : List Tx) (i : Nat),
      (attribWalk megaTxs mergedTxs i base).length = base.length := by
  intro base
  induction base with
  | nil => intro i; rfl
  | cons t ts ih => intro i; simp [attribWalk, ih]

theorem getElem?_attribWalk (megaTxs mergedTxs : List Tx) :
    ∀ (base : List Tx) (i j : Nat),
      (attribWalk megaTxs mergedTxs i base)[j]? =
        (base[j]?).map (fun t => txAttrib megaTxs[i + j]? mergedTxs[i + j]? t) := by
  intro base
  induction base with
  | nil => intro i j; simp [attribWalk]
  | cons t ts ih =>
    intro i j
    match j with
    | 0 => simp [attribWalk]
    | j + 1 =>
      have harith : i + (j + 1) = (i + 1) + j := by omega
      simp [attribWalk, ih (i + 1) j, harith]

theorem attribWalkChecked_ok (megaTxs mergedTxs : List Tx) :
    ∀ (base : List Tx) (i : Nat), i + base.length ≤ mergedTxs.length →
      attribWalkChecked megaTxs mergedTxs i base =
        .ok (attribWalk megaTxs mergedTxs i base) := by
  intro base
  induction base with
  | nil => intro i _; rfl
  | cons t ts ih =>
    intro i h
    have hi : i < mergedTxs.length := by simp at h; omega
    have hget : mergedTxs[i]? = some mergedTxs[i] :=
      (List.getElem?_eq_some_getElem_iff mergedTxs i hi).mpr trivial
    have hrec := ih (i + 1) (by simp at h ⊢; omega)
    match hm : megaTxs[i]? with
    | none =>
      simp only [attribWalkChecked, attribWalk, hm, hget, txAttribChecked, txAttrib, hrec]
      rfl
    | some mt =>
      simp only [attribWalkChecked, attribWalk, hm, hget, txAttribChecked, txAttrib, hrec]
      rfl

theorem inferMegabundle_isSome {megaBundleBlock mergedBlock : Option Block}
    (h : megaBundleBlock.isSome ∨ mergedBlock.isSome) :
    (inferMegabundleTransactionsByBlock megaBundleBlock mergedBlock).isSome := by
  match megaBundleBlock, mergedBlock with
  | none, none => simp at h
  | none, some m => simp [inferMegabundleTransactionsByBlock]
  | some g, none => simp [inferMegabundleTransactionsByBlock]
  | some g, some m =>
    simp only [inferMegabundleTransactionsByBlock]
    split <;> simp

/-- The merge never invents a block: the output block carries the
`block_number` (and scalar fields) of one of the two channel views. -/
theorem inferMegabundle_origin {megaBundleBlock mergedBlock : Option Block} {b : Block}
    (h : inferMegabundleTransactionsByBlock megaBundleBlock mergedBlock = some b) :
    (∃ x, (megaBundleBlock = some x ∨ mergedBlock = some x) ∧
      b.block_number = x.block_number) := by
  match megaBundleBlock, mergedBlock with
  | none, _ =>
    exact ⟨b, Or.inr h, rfl⟩
  | some g, none =>
    simp only [inferMegabundleTransactionsByBlock] at h
    exact ⟨g, Or.inl rfl, by rw [← Option.some.injEq] at h; cases h; rfl⟩
  | some g, some m =>
    simp only [inferMegabundleTransactionsByBlock] at h
    split at h
    · cases h; exact ⟨g, Or.inl rfl, rfl⟩
    · split at h <;> (cases h)
      · exact ⟨g, Or.inl rfl, rfl⟩
      · exact ⟨m, Or.inr rfl, rfl⟩

/-! ## Claim C10: totality of the merged-canonical attribution walk -/

/-- C10: in the merged-canonical branch of the reconciliation merge (both
views present and the megabundle transaction count not greater than the
merged one), the positional walk is total: the `TypeError`-aware model of
`inferMegabundleTransactionsByBlock` returns exactly the total model's
result, throwing nowhere — the merged transaction at every visited position
exists, and the megabundle hash at a position is only read (short-circuit of
`||` and `&&`) when the megabundle transaction at that position exists. -/
theorem merged_canonical_walk_total (megaBundle merged : Block)
    (h : megaBundle.transactions.length ≤ merged.transactions.length) :
    inferMegabundleTransactionsByBlockChecked (some megaBundle) (some merged) =
      .ok (inferMegabundleTransactionsByBlock (some megaBundle) (some merged)) := by
  have hgt : ¬ megaBundle.transactions.length > merged.transactions.length :=
    not_lt.mpr h
  have hwalk := attribWalkChecked_ok megaBundle.transactions merged.transactions
    (if isMegabundleBlock (some merged) (some megaBundle) then megaBundle
     else merged).transactions 0
  have hbase : isMegabundleBlock (some merged) (some megaBundle) = false := by
    simp [isMegabundleBlock, hgt]
  rw [hbase] at hwalk
  simp only [if_false, Bool.false_eq_true] at hwalk
  simp only [inferMegabundleTransactionsByBlockChecked,
    inferMegabundleTransactionsByBlock, if_neg hgt, hbase, Bool.false_eq_true,
    if_false, hwalk (by omega), Except.map]

/-- Witness for C10 at a concrete input: megabundle `[A]`, merged `[A, B]`. -/
theorem merged_canonical_walk_total_witness :
    (1 ≤ 2) ∧
    inferMegabundleTransactionsByBlockChecked
        (some { block_number := 12006597, miner := "0xd2", payload := "agg",
                transactions := [⟨"0xa", 12006597, "0x1", false⟩] })
        (some { block_number := 12006597, miner := "0xd2", payload := "agg",
                transactions := [⟨"0xa", 12006597, "0x1", false⟩,
                                 ⟨"0xb", 12006597, "0x2", false⟩] }) =
      .ok (inferMegabundleTransactionsByBlock
        (some { block_number := 12006597, miner := "0xd2", payload := "agg",
                transactions := [⟨"0xa", 12006597, "0x1", false⟩] })
        (some { block_number := 12006597, miner := "0xd2", payload := "agg",
                transactions := [⟨"0xa", 12006597, "0x1", false⟩,
                                 ⟨"0xb", 12006597, "0x2", false⟩] })) :=
  ⟨by decide, merged_canonical_walk_total _ _ (by decide)⟩

/-! ## Claims C3 and C4: attribution in the two canonical cases -/

/-- C3: when both channel views are present and the merged view is canonical
(the megabundle transaction count is not greater than the merged one), the
output block is the merged block, and its transaction at each position `i` is
tagged `is_megabundle = true` exactly when the megabundle view has a
transaction at position `i` whose content hash equals the merged
transaction's hash there; when the megabundle transaction at `i` is absent or
the hashes differ, the merged transaction is passed through untagged. -/
theorem merged_canonical_positional_attribution (megaBundle merged : Block)
    (hlen : megaBundle.transactions.length ≤ merged.transactions.length)
    (hflags : ∀ t ∈ merged.transactions, t.is_megabundle = false) :
    ∃ out, inferMegabundleTransactionsByBlock (some megaBundle) (some merged) = some out ∧
      out.block_number = merged.block_number ∧
      out.miner = merged.miner ∧
      out.payload = merged.payload ∧
      out.transactions.length = merged.transactions.length ∧
      ∀ (i : Nat) (t : Tx), merged.transactions[i]? = some t →
        ((∃ mt : Tx, megaBundle.transactions[i]? = some mt ∧
            mt.transaction_hash = t.transaction_hash) →
          out.transactions[i]? = some { t with is_megabundle := true }) ∧
        ((∀ mt : Tx, megaBundle.transactions[i]? = some mt →
            mt.transaction_hash ≠ t.transaction_hash) →
          out.transactions[i]? = some t ∧ t.is_megabundle = false) := by
  have hgt : ¬ megaBundle.transactions.length > merged.transactions.length :=
    not_lt.mpr hlen
  have hbase : isMegabundleBlock (some merged) (some megaBundle) = false := by
    simp [isMegabundleBlock, hgt]
  refine ⟨{ merged with
      transactions :=
        attribWalk megaBundle.transactions merged.transactions 0 merged.transactions },
    ?_, rfl, rfl, rfl, ?_, ?_⟩
  · simp only [inferMegabundleTransactionsByBlock, if_neg hgt, hbase,
      Bool.false_eq_true, if_false]
  · exact length_attribWalk megaBundle.transactions merged.transactions
      merged.transactions 0
  · intro i t ht
    have hwalk := getElem?_attribWalk megaBundle.transactions merged.transactions
      merged.transactions 0 i
    rw [Nat.zero_add, ht] at hwalk
    constructor
    · rintro ⟨mt, hmt, hhash⟩
      rw [hmt] at hwalk
      simp [txAttrib, hhash, hwalk]
    · intro hne
      match hm : megaBundle.transactions[i]? with
      | none =>
        rw [hm] at hwalk
        exact ⟨by simpa [txAttrib] using hwalk,
          hflags t (List.getElem?_mem ht)⟩
      | some mt =>
        rw [hm] at hwalk
        exact ⟨by simpa [txAttrib, hne mt hm] using hwalk,
          hflags t (List.getElem?_mem ht)⟩

/-- Witness for C3 at the spec's own example: merged `[A, B, C]` against
megabundle `[A, X]` (hashes disagree at position 1, megabundle absent at
position 2). -/
theorem merged_canonical_positional_attribution_witness :
    ((2 ≤ 3) ∧
      ∀ t ∈ [Tx.mk "0xa" 12006597 "0x1" false, Tx.mk "0xb" 12006597 "0x2" false,
             Tx.mk "0xc" 12006597 "0x3" false], t.is_megabundle = false) ∧
    ∃ out,
      inferMegabundleTransactionsByBlock
          (some (Block.mk 12006597 "0xd2" "agg"
            [Tx.mk "0xa" 12006597 "0x1" false, Tx.mk "0xx" 12006597 "0x9" false]))
          (some (Block.mk 12006597 "0xd2" "agg"
            [Tx.mk "0xa" 12006597 "0x1" false, Tx.mk "0xb" 12006597 "0x2" false,
             Tx.mk "0xc" 12006597 "0x3" false])) = some out ∧
      out.block_number = 12006597 ∧
      out.miner = "0xd2" ∧
      out.payload = "agg" ∧
      out.transactions.length = 3 ∧
      ∀ (i : Nat) (t : Tx),
        [Tx.mk "0xa" 12006597 "0x1" false, Tx.mk "0xb" 12006597 "0x2" false,
         Tx.mk "0xc" 12006597 "0x3" false][i]? = some t →
        ((∃ mt : Tx,
            [Tx.mk "0xa" 12006597 "0x1" false, Tx.mk "0xx" 12006597 "0x9" false][i]? =
              some mt ∧ mt.transaction_hash = t.transaction_hash) →
          out.transactions[i]? = some { t with is_megabundle := true }) ∧
        ((∀ mt : Tx,
            [Tx.mk "0xa" 12006597 "0x1" false, Tx.mk "0xx" 12006597 "0x9" false][i]? =
              some mt → mt.transaction_hash ≠ t.transaction_hash) →
          out.transactions[i]? = some t ∧ t.is_megabundle = false) :=
  ⟨⟨by decide, by decide⟩,
    merged_canonical_positional_attribution _ _ (by decide) (by decide)⟩

/-- C4: when the megabundle view is canonical — the merged view is absent, or
the megabundle view has strictly more transactions — the output block is the
megabundle block and every one of its transactions is tagged
`is_megabundle = true`. -/
theorem megabundle_canonical_all_tagged (megaBundle : Block) (mergedBlock : Option Block)
    (h : mergedBlock = none ∨
      ∃ m, mergedBlock = some m ∧
        m.transactions.length < megaBundle.transactions.length) :
    ∃ out, inferMegabundleTransactionsByBlock (some megaBundle) mergedBlock = some out ∧
      out.block_number = megaBundle.block_number ∧
      out.miner = megaBundle.miner ∧
      out.payload = megaBundle.payload ∧
      out.transactions.length = megaBundle.transactions.length ∧
      (∀ t ∈ out.transactions, t.is_megabundle = true) ∧
      ∀ (i : Nat) (mt : Tx), megaBundle.transactions[i]? = some mt →
        out.transactions[i]? = some { mt with is_megabundle := true } := by
  have hout :
      inferMegabundleTransactionsByBlock (some megaBundle) mergedBlock =
        some { megaBundle with transactions := megaBundle.transactions.map tagTx } := by
    rcases h with rfl | ⟨m, rfl, hlt⟩
    · rfl
    · simp only [inferMegabundleTransactionsByBlock, if_pos hlt]
  refine ⟨_, hout, rfl, rfl, rfl, by simp, ?_, ?_⟩
  · intro t ht
    rcases List.mem_map.mp ht with ⟨x, _, rfl⟩
    rfl
  · intro i mt hmt
    simp [List.getElem?_map, hmt, tagTx]

/-- Witness for C4 at the spec's own example: merged with 2 transactions,
megabundle with 5 — the 5-transaction megabundle block comes out, all
tagged. -/
theorem megabundle_canonical_all_tagged_witness :
    (∃ m, some (Block.mk 12006597 "0xd2" "agg2"
        [Tx.mk "0xa" 12006597 "0x1" false, Tx.mk "0xb" 12006597 "0x2" false]) = some m ∧
      m.transactions.length <
        [Tx.mk "0x1" 12006597 "0xe1" false, Tx.mk "0x2" 12006597 "0xe2" false,
         Tx.mk "0x3" 12006597 "0xe3" false, Tx.mk "0x4" 12006597 "0xe4" false,
         Tx.mk "0x5" 12006597 "0xe5" false].length) ∧
    ∃ out,
      inferMegabundleTransactionsByBlock
          (some (Block.mk 12006597 "0xd2" "agg5"
            [Tx.mk "0x1" 12006597 "0xe1" false, Tx.mk "0x2" 12006597 "0xe2" false,
             Tx.mk "0x3" 12006597 "0xe3" false, Tx.mk "0x4" 12006597 "0xe4" false,
             Tx.mk "0x5" 12006597 "0xe5" false]))
          (some (Block.mk 12006597 "0xd2" "agg2"
            [Tx.mk "0xa" 12006597 "0x1" false, Tx.mk "0xb" 12006597 "0x2" false])) =
        some out ∧
      out.block_number = 12006597 ∧
      out.miner = "0xd2" ∧
      out.payload = "agg5" ∧
      out.transactions.length = 5 ∧
      (∀ t ∈ out.transactions, t.is_megabundle = true) ∧
      ∀ (i : Nat) (mt : Tx),
        [Tx.mk "0x1" 12006597 "0xe1" false, Tx.mk "0x2" 12006597 "0xe2" false,
         Tx.mk "0x3" 12006597 "0xe3" false, Tx.mk "0x4" 12006597 "0xe4" false,
         Tx.mk "0x5" 12006597 "0xe5" false][i]? = some mt →
        out.transactions[i]? = some { mt with is_megabundle := true } :=
  ⟨⟨_, rfl, by decide⟩,
    megabundle_canonical_all_tagged _ _ (Or.inr ⟨_, rfl, by decide⟩)⟩

/-! ## The block-number selection step -/

/-- The selection step as the specification words it ("sort ascending; take
the rightmost `limit` entries (i.e., the `limit` highest block numbers)"): a
*numeric* ascending sort of the distinct block numbers, then the rightmost
`limit`.  Stated for comparison with `blockNumbersOf`, which sorts with
JavaScript's default decimal-string comparison instead. -/
def specNumericBlockNumbers (mergedBundles megabundles : List Block) (limit : Nat) :
    List Nat :=
  takeRight limit
    (List.insertionSort (fun a b : Nat => a ≤ b)
      (uniqJS ((mergedBundles ++ megabundles).map Block.block_number)))

theorem mem_blockNumbersOf {n : Nat} {mergedBundles megabundles : List Block} {k : Nat}
    (h : n ∈ blockNumbersOf mergedBundles megabundles k) :
    ∃ b ∈ mergedBundles ++ megabundles, b.block_number = n := by
  have h1 := takeRight_subset _ _ h
  rw [List.mem_insertionSort, mem_uniqJS] at h1
  rcases List.mem_map.mp h1 with ⟨b, hb, rfl⟩
  exact ⟨b, hb, rfl⟩

theorem length_blockNumbersOf_le (mergedBundles megabundles : List Block) (k : Nat) :
    (blockNumbersOf mergedBundles megabundles k).length ≤ k := by
  rw [blockNumbersOf, length_takeRight]
  omega

/-- The selected block numbers are strictly ascending in the
decimal-string (JavaScript default sort) order. -/
theorem pairwise_jsLt_blockNumbersOf (mergedBundles megabundles : List Block) (k : Nat) :
    List.Pairwise jsLt (blockNumbersOf mergedBundles megabundles k) := by
  have hsorted : List.Sorted jsLe
      (List.insertionSort jsLe
        (uniqJS ((mergedBundles ++ megabundles).map Block.block_number))) :=
    List.sorted_insertionSort jsLe _
  have hnodup :
      (List.insertionSort jsLe
        (uniqJS ((mergedBundles ++ megabundles).map Block.block_number))).Nodup :=
    ((List.perm_insertionSort jsLe _).nodup_iff).mpr (nodup_uniqJS _)
  have hstrict := (hsorted.and hnodup).imp
    (fun h => jsLt_of_jsLe_of_ne h.1 h.2)
  exact hstrict.sublist (takeRight_sublist _ _)

/-! ## Lookup (`_.keyBy` + index) lemmas -/

theorem keyByLookup_block_number {rows : List Block} {n : Nat} {b : Block}
    (h : keyByLookup rows n = some b) : b.block_number = n := by
  have := List.find?_some h
  simpa using this

theorem keyByLookup_mem {rows : List Block} {n : Nat} {b : Block}
    (h : keyByLookup rows n = some b) : b ∈ rows := by
  have := List.mem_of_find?_eq_some h
  simpa using this

theorem keyByLookup_isSome {rows : List Block} {n : Nat}
    (h : ∃ b ∈ rows, b.block_number = n) : (keyByLookup rows n).isSome := by
  rw [keyByLookup, List.find?_isSome]
  rcases h with ⟨b, hb, rfl⟩
  exact ⟨b, List.mem_reverse.mpr hb, by simp⟩

/-! ## Query lemmas -/

theorem mem_channelQuery {db : List Block} {beforeInt blockNumInt : Option Int}
    {miner fromAddress : Option String} {limit : Nat} {b : Block}
    (h : b ∈ channelQuery db beforeInt blockNumInt miner fromAddress limit) :
    b ∈ db ∧ beforeCond beforeInt b.block_number = true := by
  have h1 := List.mem_of_mem_take h
  rw [sortByBlockNumberDesc, List.mem_insertionSort] at h1
  have h2 := List.mem_filter.mp h1
  refine ⟨h2.1, ?_⟩
  have h3 := h2.2
  simp only [Bool.and_eq_true] at h3
  exact h3.1.1.1

theorem length_channelQuery_le (db : List Block) (beforeInt blockNumInt : Option Int)
    (miner fromAddress : Option String) (limit : Nat) :
    (channelQuery db beforeInt blockNumInt miner fromAddress limit).length ≤ limit :=
  List.length_take_le _ _

theorem mem_transactionsQuery {db : List Tx} {beforeInt : Option Int} {limit : Nat}
    {t : Tx} (h : t ∈ transactionsQuery db beforeInt limit) :
    t ∈ db ∧ beforeCond beforeInt t.block_number = true := by
  have h1 := List.mem_of_mem_take h
  rw [List.mem_insertionSort] at h1
  have h2 := List.mem_filter.mp h1
  exact ⟨h2.1, h2.2⟩

theorem length_transactionsQuery_le (db : List Tx) (beforeInt : Option Int)
    (limit : Nat) : (transactionsQuery db beforeInt limit).length ≤ limit :=
  List.length_take_le _ _

/-! ## The rebuilt output array -/

theorem length_inferredBundleBlocksOf (mergedBundles megabundles : List Block)
    (k : Nat) :
    (inferredBundleBlocksOf mergedBundles megabundles k).length ≤ k := by
  rw [inferredBundleBlocksOf, List.length_map]
  exact length_blockNumbersOf_le _ _ _

/-- Every entry of the rebuilt array is a real block (never JavaScript
`undefined`): each selected block number occurs in at least one channel. -/
theorem inferredBundleBlocksOf_isSome {mergedBundles megabundles : List Block} {k : Nat}
    {ob : Option Block} (h : ob ∈ inferredBundleBlocksOf mergedBundles megabundles k) :
    ob.isSome := by
  rw [inferredBundleBlocksOf] at h
  rcases List.mem_map.mp h with ⟨n, hn, rfl⟩
  rcases mem_blockNumbersOf hn with ⟨b, hb, rfl⟩
  rcases List.mem_append.mp hb with hmem | hmem
  · refine inferMegabundle_isSome (Or.inr ?_)
    exact keyByLookup_isSome ⟨b, hmem, rfl⟩
  · refine inferMegabundle_isSome (Or.inl ?_)
    exact keyByLookup_isSome ⟨b, hmem, rfl⟩

/-- Each rebuilt entry carries exactly its selected block number, and that
block (with its scalar fields) comes from one of the two channel result
sets. -/
theorem inferredBundleBlocksOf_block_number {mergedBundles megabundles : List Block}
    {n : Nat} {b : Block}
    (h : inferMegabundleTransactionsByBlock (keyByLookup megabundles n)
      (keyByLookup mergedBundles n) = some b) :
    b.block_number = n := by
  rcases inferMegabundle_origin h with ⟨x, hx | hx, hbn⟩
  · exact hbn.trans (keyByLookup_block_number hx)
  · exact hbn.trans (keyByLookup_block_number hx)

/-! ## Handler inversion -/

/-- A successful `/v1/blocks` response is always the reconciliation merge of
the two channel queries, run with the validated parameters. -/
theorem blocksHandler_ok_inv {mergedDb megaDb : List Block}
    {checksum : String → Option String} {req : BlocksReq} {bs : List (Option Block)}
    (h : blocksHandler mergedDb megaDb checksum req = .ok bs) :
    ∃ minerC fromC : Option String,
      bs = inferredBundleBlocksOf
        (channelQuery mergedDb (parsedParam req.before) (parsedParam req.block_number)
          minerC fromC (req.limit.getD 100).toNat)
        (channelQuery megaDb (parsedParam req.before) (parsedParam req.block_number)
          minerC fromC (req.limit.getD 100).toNat)
        (req.limit.getD 100).toNat := by
  simp only [blocksHandler] at h
  split at h
  · cases h
  · split at h
    · cases h
    · split at h
      · cases h
      · split at h
        · cases h
        · split at h
          · cases h
          · exact ⟨_, _, ((Resp.ok.injEq _ _).mp h).symm⟩

/-- A successful `/v1/transactions` response is always the single query, run
with the validated parameters. -/
theorem transactionsHandler_ok_inv {txDb : List Tx} {req : TransactionsReq}
    {ts : List Tx} (h : transactionsHandler txDb req = .ok ts) :
    ts = transactionsQuery txDb (parsedParam req.before) (req.limit.getD 100).toNat := by
  simp only [transactionsHandler] at h
  split at h
  · cases h
  · split at h
    · cases h
    · exact ((Resp.ok.injEq _ _).mp h).symm

/-! ## Claim C1: the selection step sorts decimal strings, not numbers -/

/-- C1 (failing input): with regular-channel rows for blocks 9 and 100 (and
an empty megabundle channel) and `limit = 1`, the comparator-less JavaScript
`.sort()` compares the decimal strings, placing `"100"` before `"9"`, so
`takeRight(1)` keeps block 9 — whereas the specified selection ("the `limit`
numerically highest distinct block numbers", here via `specNumericBlockNumbers`)
keeps block 100. -/
theorem blockNumbers_string_sort_failing_input :
    blockNumbersOf [Block.mk 9 "0xm" "p" [], Block.mk 100 "0xm" "p" []] [] 1 = [9] ∧
    specNumericBlockNumbers [Block.mk 9 "0xm" "p" [], Block.mk 100 "0xm" "p" []] [] 1 =
      [100] :=
  ⟨rfl, rfl⟩

/-! ## Claim C2: output order of the blocks listing -/

/-- C2 (counterexample): a response of the blocks listing that is *not*
ordered by `block_number` descending — with regular-channel blocks 100 and
101 and `limit = 2` the handler emits block 100 first, then block 101, so
the first block's number is not greater than its successor's. -/
theorem blocks_listing_not_descending_counterexample :
    blocksHandler [Block.mk 100 "0xm" "p" [], Block.mk 101 "0xm" "p" []] []
        (fun a => some a)
        { before := none, block_number := none, miner := none, fromParam := none,
          limit := some 2 } =
      .ok [some (Block.mk 100 "0xm" "p" []), some (Block.mk 101 "0xm" "p" [])] ∧
    ¬ ((100 : Nat) > 101) :=
  ⟨rfl, by decide⟩

/-- C2 (amended): every blocks-listing response lists its blocks in strictly
*ascending* order of the JavaScript decimal-string comparison of their block
numbers (`jsLt`) — the order the comparator-less `.sort()` leaves them in —
which is numeric ascending whenever the returned block numbers all have the
same number of decimal digits; and every entry of the array is a real block
(never `undefined`). -/
theorem blocks_listing_ascending (mergedDb megaDb : List Block)
    (checksum : String → Option String) (req : BlocksReq) (bs : List (Option Block))
    (h : blocksHandler mergedDb megaDb checksum req = .ok bs) :
    (∀ ob ∈ bs, ob.isSome) ∧
    List.Chain' (fun a b : Option Block =>
      ∀ x y : Block, a = some x → b = some y →
        jsLt x.block_number y.block_number) bs := by
  obtain ⟨minerC, fromC, rfl⟩ := blocksHandler_ok_inv h
  constructor
  · intro ob hob
    exact inferredBundleBlocksOf_isSome hob
  · rw [inferredBundleBlocksOf, List.chain'_map]
    refine List.Pairwise.chain' ?_
    refine (pairwise_jsLt_blockNumbersOf _ _ _).imp ?_
    intro n m hnm x y hx hy
    rwa [inferredBundleBlocksOf_block_number hx,
      inferredBundleBlocksOf_block_number hy]

/-- Witness for the amended C2 at a concrete response (blocks 100 and 101,
limit 2). -/
theorem blocks_listing_ascending_witness :
    (∀ ob ∈ [some (Block.mk 100 "0xm" "p" []), some (Block.mk 101 "0xm" "p" [])],
      ob.isSome) ∧
    List.Chain' (fun a b : Option Block =>
      ∀ x y : Block, a = some x → b = some y →
        jsLt x.block_number y.block_number)
      [some (Block.mk 100 "0xm" "p" []), some (Block.mk 101 "0xm" "p" [])] :=
  blocks_listing_ascending
    [Block.mk 100 "0xm" "p" [], Block.mk 101 "0xm" "p" []] [] (fun a => some a)
    { before := none, block_number := none, miner := none, fromParam := none,
      limit := some 2 } _ rfl

/-! ## Claim C5: the `before` cursor -/

/-- C5 (counterexample): `before = 0` is well-formed (it parses as the
integer 0) but is JavaScript-falsy, so `${beforeInt || null}` disables the
filter entirely: a block with number 5 (which is not `< 0`) is returned. -/
theorem before_zero_disables_filter_counterexample :
    blocksHandler [Block.mk 5 "0xm" "p" []] [] (fun a => some a)
        { before := some (some 0), block_number := none, miner := none,
          fromParam := none, limit := some 10 } =
      .ok [some (Block.mk 5 "0xm" "p" [])] ∧
    ¬ ((5 : Int) < 0) :=
  ⟨rfl, by decide⟩

/-- C5 (amended): for every well-formed **nonzero** `before`, every block
returned by the blocks listing and every transaction returned by the
transactions listing has `block_number` strictly less than `before` (zero is
the unique parsed integer that is JavaScript-falsy and silently disables the
filter). -/
theorem before_cursor_strict_upper_bound
    (mergedDb megaDb : List Block) (txDb : List Tx)
    (checksum : String → Option String) (breq : BlocksReq) (treq : TransactionsReq)
    (v : Int) (hv : v ≠ 0)
    (hb : breq.before = some (some v)) (ht : treq.before = some (some v)) :
    (∀ bs, blocksHandler mergedDb megaDb checksum breq = .ok bs →
      ∀ ob ∈ bs, ∀ b : Block, ob = some b → (b.block_number : Int) < v) ∧
    (∀ ts, transactionsHandler txDb treq = .ok ts →
      ∀ t ∈ ts, (t.block_number : Int) < v) := by
  have hcond : ∀ bn : Nat, beforeCond (some v) bn = true → (bn : Int) < v := by
    intro bn hc
    simp only [beforeCond, if_neg hv] at hc
    exact of_decide_eq_true hc
  constructor
  · intro bs h ob hob b hb2
    obtain ⟨minerC, fromC, rfl⟩ := blocksHandler_ok_inv h
    subst hb2
    rw [inferredBundleBlocksOf] at hob
    rcases List.mem_map.mp hob with ⟨n, _, heq⟩
    rcases inferMegabundle_origin heq with ⟨x, hx | hx, hbn⟩
    · have hxq := (mem_channelQuery (keyByLookup_mem hx)).2
      rw [hb] at hxq
      rw [hbn]
      exact hcond _ hxq
    · have hxq := (mem_channelQuery (keyByLookup_mem hx)).2
      rw [hb] at hxq
      rw [hbn]
      exact hcond _ hxq
  · intro ts h t htm
    rw [transactionsHandler_ok_inv h] at htm
    have hxq := (mem_transactionsQuery htm).2
    rw [ht] at hxq
    exact hcond _ hxq

/-- Witness for the amended C5 at `before = 50`: the returned block 5 and
transaction both satisfy `block_number < 50`. -/
theorem before_cursor_strict_upper_bound_witness :
    ((50 : Int) ≠ 0) ∧
    ((∀ bs, blocksHandler [Block.mk 5 "0xm" "p" []] [] (fun a => some a)
        { before := some (some 50), block_number := none, miner := none,
          fromParam := none, limit := some 10 } = .ok bs →
      ∀ ob ∈ bs, ∀ b : Block, ob = some b → (b.block_number : Int) < 50) ∧
    (∀ ts, transactionsHandler [Tx.mk "0xa" 5 "0x1" false]
        { before := some (some 50), limit := some 10 } = .ok ts →
      ∀ t ∈ ts, (t.block_number : Int) < 50)) :=
  ⟨by decide,
    before_cursor_strict_upper_bound _ _ _ _ _ _ 50 (by decide) rfl rfl⟩

/-! ## Claim C6: the `limit` bound -/

/-- C6: for every valid `limit` in `[1, 10000]`, a successful blocks-listing
response holds at most `limit` blocks and a successful transactions-listing
response at most `limit` transactions — even though each of the two channel
aggregations is limited independently, the union is truncated again after
the merge. -/
theorem limit_bounds_output
    (mergedDb megaDb : List Block) (txDb : List Tx)
    (checksum : String → Option String) (breq : BlocksReq) (treq : TransactionsReq)
    (l : Int) (_h1 : 1 ≤ l) (_h2 : l ≤ 10000)
    (hbl : breq.limit = some l) (htl : treq.limit = some l) :
    (∀ bs, blocksHandler mergedDb megaDb checksum breq = .ok bs →
      bs.length ≤ l.toNat) ∧
    (∀ ts, transactionsHandler txDb treq = .ok ts → ts.length ≤ l.toNat) := by
  constructor
  · intro bs h
    obtain ⟨minerC, fromC, rfl⟩ := blocksHandler_ok_inv h
    simp only [hbl, Option.getD_some]
    exact length_inferredBundleBlocksOf _ _ _
  · intro ts h
    rw [transactionsHandler_ok_inv h, htl]
    exact length_transactionsQuery_le _ _ _

/-- Witness for C6 at `limit = 1` with two blocks in each channel (the union
holds two distinct block numbers, yet at most one block comes back). -/
theorem limit_bounds_output_witness :
    ((1 : Int) ≤ 1 ∧ (1 : Int) ≤ 10000) ∧
    ((∀ bs, blocksHandler
        [Block.mk 100 "0xm" "p" []] [Block.mk 101 "0xm" "p" []] (fun a => some a)
        { before := none, block_number := none, miner := none, fromParam := none,
          limit := some 1 } = .ok bs → bs.length ≤ (1 : Int).toNat) ∧
    (∀ ts, transactionsHandler
        [Tx.mk "0xa" 100 "0x1" false, Tx.mk "0xb" 101 "0x2" false]
        { before := none, limit := some 1 } = .ok ts →
      ts.length ≤ (1 : Int).toNat)) :=
  ⟨⟨by decide, by decide⟩,
    limit_bounds_output _ _ _ _ _ _ 1 (by decide) (by decide) rfl rfl⟩

/-! ## Claim C7: `limit = 0` slips through validation -/

/-- C7 (failing input): `limit = 0` parses to an integer outside `(0, 10000]`
but passes the source's check `limit < 0 || limit > 10000`; instead of the
documented validation error (the route doc declares `{Number{1-10000}}` and
the error message itself says "more than 0"), both listings return a 200
success with an empty result (`LIMIT 0`). -/
theorem limit_zero_accepted_failing_input :
    blocksHandler [Block.mk 5 "0xm" "p" []] [] (fun a => some a)
        { before := none, block_number := none, miner := none, fromParam := none,
          limit := some 0 } = .ok [] ∧
    transactionsHandler [Tx.mk "0xa" 5 "0x1" false]
        { before := none, limit := some 0 } = .ok [] :=
  ⟨rfl, rfl⟩

/-! ## Claim C8: malformed addresses -/

/-- C8 (counterexample): a malformed `miner` address does *not* produce the
client-error validation shape: `toChecksumAddress` throws inside the `try`
block, the `catch` answers with the generic server error.  The canonicalizer
is instantiated with one that rejects the supplied address. -/
theorem malformed_address_counterexample :
    (blocksHandler [Block.mk 5 "0xm" "p" []] [] (fun _ => none)
        { before := none, block_number := none, miner := some "0xzz",
          fromParam := none, limit := some 2 }).isClientError = false ∧
    blocksHandler [Block.mk 5 "0xm" "p" []] [] (fun _ => none)
        { before := none, block_number := none, miner := some "0xzz",
          fromParam := none, limit := some 2 } = .serverError :=
  ⟨rfl, rfl⟩

/-- C8 (amended): for every request that passes the `limit`/`before`/
`block_number` validation, a malformed `miner` or `from` address (one the
canonicalizer rejects) makes the request fail with the generic server-error
status — the canonicalizer's exception escapes to the handler's generic
`catch` — and not with the machine-readable client validation error the
other parameter faults receive. -/
theorem malformed_address_server_error
    (mergedDb megaDb : List Block) (checksum : String → Option String)
    (req : BlocksReq)
    (hlim : ¬ (req.limit.getD 100 < 0 ∨ req.limit.getD 100 > 10000))
    (hbefore : req.before ≠ some none)
    (hbn : req.block_number ≠ some none)
    (hbad : (∃ m, req.miner = some m ∧ checksum m = none) ∨
      ((∀ m, req.miner = some m → (checksum m).isSome = true) ∧
        ∃ f, req.fromParam = some f ∧ checksum f = none)) :
    blocksHandler mergedDb megaDb checksum req = .serverError := by
  have hc1 : (decide (req.limit.getD 100 < 0) ||
      decide (req.limit.getD 100 > 10000)) = false := by
    rcases not_or.mp hlim with ⟨ha, hb2⟩
    simp [ha, hb2]
  rcases hbad with ⟨m, hm, hcm⟩ | ⟨hminer, f, hf, hcf⟩
  · simp [blocksHandler, hc1, if_neg hbefore, if_neg hbn, hm, checksumOpt, hcm]
  · have hmok : ∃ mc, checksumOpt checksum req.miner = .ok mc := by
      match hmm : req.miner with
      | none => exact ⟨none, rfl⟩
      | some m =>
        have hs := hminer m hmm
        match hc : checksum m with
        | some c => exact ⟨some c, by simp [checksumOpt, hc]⟩
        | none => rw [hc] at hs; cases hs
    rcases hmok with ⟨mc, hmc⟩
    simp only [blocksHandler, hc1, Bool.false_eq_true, if_false, if_neg hbefore,
      if_neg hbn, hf, checksumOpt, hcf]
    split <;> rfl

/-- Witness for the amended C8: with a canonicalizer accepting only
`"0xgood"`, a request with a well-formed miner but malformed `from` ends in
the generic server error. -/
theorem malformed_address_server_error_witness :
    ((fun a : String => if a = "0xgood" then some "0xGood" else none) "0xbad" = none) ∧
    blocksHandler [Block.mk 5 "0xm" "p" []] []
        (fun a : String => if a = "0xgood" then some "0xGood" else none)
        { before := none, block_number := none, miner := some "0xgood",
          fromParam := some "0xbad", limit := some 5 } = .serverError :=
  ⟨by decide,
    malformed_address_server_error _ _ _ _ (by decide) (by decide) (by decide)
      (Or.inr ⟨fun m hm => by cases hm; decide, "0xbad", rfl, by decide⟩)⟩

/-! ## Claim C9: era routing -/

/-- Modelled from the spec: the Era Router's routing key (§4.4).  The
current-generation entry point that dispatches between the dual-channel
(pre-transition) path and the single-channel (post-transition) path is not
among the provided sources — `premerge.js` defines only the dual-channel
callee — so the guard is modelled from the spec's words: route to the
dual-channel path iff the explicit `block_number` filter or the `before`
cursor is present and below the configured cutoff (an absent parameter
compares false). -/
def routeToPremerge (cutoff : Int) (blockNumInt beforeInt : Option Int) : Bool :=
  (match blockNumInt with
   | some v => decide (v < cutoff)
   | none => false) ||
  (match beforeInt with
   | some v => decide (v < cutoff)
   | none => false)

/-- Modelled from the spec: the post-transition single-channel blocks listing
(§4.4, "only a single, simpler aggregation ... no megabundle channel"): the
same parameter validation and address canonicalization, one regular-channel
aggregation, no reconciliation merge (entries wrapped in `some` for payload
compatibility with the dual-channel response). -/
def singleChannelBlocksHandler (mergedDb : List Block)
    (checksum : String → Option String) (req : BlocksReq) :
    Resp (List (Option Block)) :=
  let limit : Int := req.limit.getD 100
  if limit < 0 || limit > 10000 then
    .badRequest "invalid limit param provided, must be less than 10000 and more than 0 but got"
  else if req.before = some none then
    .badRequest "invalid before param provided, expected a number but got"
  else if req.block_number = some none then
    .badRequest "invalid block_number param provided, expected a number but got"
  else
    match checksumOpt checksum req.miner with
    | .error _ => .serverError
    | .ok minerC =>
      match checksumOpt checksum req.fromParam with
      | .error _ => .serverError
      | .ok fromC =>
        .ok ((channelQuery mergedDb (parsedParam req.before)
          (parsedParam req.block_number) minerC fromC limit.toNat).map some)

/-- Modelled from the spec: the era-routing dispatcher (§4.4) over the two
paths, keyed on the validated `block_number`/`before` parameters. -/
def routedBlocksHandler (cutoff : Int) (mergedDb megaDb : List Block)
    (checksum : String → Option String) (req : BlocksReq) :
    Resp (List (Option Block)) :=
  if routeToPremerge cutoff (parsedParam req.block_number) (parsedParam req.before) then
    blocksHandler mergedDb megaDb checksum req
  else
    singleChannelBlocksHandler mergedDb checksum req

/-- C9: a blocks-listing request whose parsed `block_number` filter or
`before` cursor lies below the era cutoff is served by the dual-channel
reconciliation path (both aggregations issued and merged, i.e. the
`blocksHandler` pipeline); any other request is served by the single-channel
post-transition path with no megabundle channel. -/
theorem era_routing (cutoff : Int) (mergedDb megaDb : List Block)
    (checksum : String → Option String) (req : BlocksReq) :
    (((∃ v, parsedParam req.block_number = some v ∧ v < cutoff) ∨
      (∃ v, parsedParam req.before = some v ∧ v < cutoff)) →
      routedBlocksHandler cutoff mergedDb megaDb checksum req =
        blocksHandler mergedDb megaDb checksum req) ∧
    ((¬ ((∃ v, parsedParam req.block_number = some v ∧ v < cutoff) ∨
      (∃ v, parsedParam req.before = some v ∧ v < cutoff))) →
      routedBlocksHandler cutoff mergedDb megaDb checksum req =
        singleChannelBlocksHandler mergedDb checksum req) := by
  have hiff :
      (routeToPremerge cutoff (parsedParam req.block_number)
        (parsedParam req.before) = true) ↔
      ((∃ v, parsedParam req.block_number = some v ∧ v < cutoff) ∨
       (∃ v, parsedParam req.before = some v ∧ v < cutoff)) := by
    unfold routeToPremerge
    rcases hbn : parsedParam req.block_number with _ | v1 <;>
      rcases hbf : parsedParam req.before with _ | v2 <;>
        simp
  constructor
  · intro h
    rw [routedBlocksHandler, if_pos (hiff.mpr h)]
  · intro h
    rw [routedBlocksHandler, if_neg (fun hc => h (hiff.mp hc))]

/-- Witness for C9: below-cutoff `block_number` (with `before` absent) routes
to the dual-channel path; a request with only an above-cutoff `before` routes
to the single-channel path. -/
theorem era_routing_witness :
    (∃ v : Int, parsedParam (some (some 11000000)) = some v ∧ v < 13000000) ∧
    routedBlocksHandler 13000000 [Block.mk 5 "0xm" "p" []] [] (fun a => some a)
        { before := none, block_number := some (some 11000000), miner := none,
          fromParam := none, limit := some 1 } =
      blocksHandler [Block.mk 5 "0xm" "p" []] [] (fun a => some a)
        { before := none, block_number := some (some 11000000), miner := none,
          fromParam := none, limit := some 1 } ∧
    routedBlocksHandler 13000000 [Block.mk 5 "0xm" "p" []] [] (fun a => some a)
        { before := some (some 14000000), block_number := none, miner := none,
          fromParam := none, limit := some 1 } =
      singleChannelBlocksHandler [Block.mk 5 "0xm" "p" []] (fun a => some a)
        { before := some (some 14000000), block_number := none, miner := none,
          fromParam := none, limit := some 1 } :=
  ⟨⟨11000000, rfl, by decide⟩,
    (era_routing 13000000 [Block.mk 5 "0xm" "p" []] [] (fun a => some a)
        { before := none, block_number := some (some 11000000), miner := none,
          fromParam := none, limit := some 1 }).1
      (Or.inl ⟨11000000, rfl, by decide⟩),
    (era_routing 13000000 [Block.mk 5 "0xm" "p" []] [] (fun a => some a)
        { before := some (some 14000000), block_number := none, miner := none,
          fromParam := none, limit := some 1 }).2
      (by
        rintro (⟨v, hv, _⟩ | ⟨v, hv, hlt⟩)
        · cases hv
        · cases hv
          omega)⟩

end MevBlocks
